import Mathlib

/-!
Verification of the ok24 voice-chat front-end core.

The Lean definitions below are a shallow embedding of the repository's
three source files: the API client (sendChatMessage in api.ts), the two
near-duplicate speech-synthesis hooks (useSpeechSynthesis.ts), the
speech-recognition hook (useSpeechRecognition.ts), and the voice
conversation orchestrator (handleVoiceConversation in App.tsx).
Stateful hook code is embedded as explicit state records with step
functions; scheduled timer callbacks are embedded as explicit fire
functions taking the live values they read at fire time; emitted side
effects (engine invocations, callback firings) are returned as effect
lists.
-/

namespace Ok24

/-! ### API layer (api.ts, sendChatMessage) -/

/-- Fields of a non-2xx response body that sendChatMessage reads after
response.json() succeeds.  A JS field that is null/absent is none; a
present string field is some.  -/
structure ErrorBody where
  message : Option String
  error : Option String
deriving Repr, DecidableEq

/-- JS truthiness of a string-or-null value: null and the empty string
are falsy, every other string is truthy. -/
def truthyStr : Option String → Bool
  | none => false
  | some s => s ≠ ""

/-- JS String.prototype.trim, modelled directly on the character list:
strip leading and trailing whitespace. -/
def jsTrim (s : String) : String :=
  String.mk (((s.data.dropWhile Char.isWhitespace).reverse.dropWhile
    Char.isWhitespace).reverse)

/-- Default error message built before the try block of the non-ok
branch: "API yanıt hatası: status statusText" (api.ts line 44). -/
def defaultErrorMessage (status : Nat) (statusText : String) : String :=
  "API yanıt hatası: " ++ toString status ++ " " ++ statusText

/-- Fixed invalid-credential message used for parsed 403 responses
(api.ts line 49). -/
def invalidKeyMessage : String :=
  "Geçersiz API anahtarı. Lütfen API anahtarınızı kontrol edin."

/-- Error message thrown by sendChatMessage for a non-ok response
(api.ts lines 43-59).  parsedBody is none when response.json() throws
(body not parseable as JSON), in which case the catch leaves the
default message in place; only when parsing succeeded does the code
reach the status-403 test and the message/error fallbacks. -/
def nonOkErrorMessage (status : Nat) (statusText : String)
    (parsedBody : Option ErrorBody) : String :=
  match parsedBody with
  | none => defaultErrorMessage status statusText
  | some d =>
      if status == 403 then invalidKeyMessage
      else
        match d.message with
        | some m =>
            if m ≠ "" then m
            else
              match d.error with
              | some e => if e ≠ "" then e else defaultErrorMessage status statusText
              | none => defaultErrorMessage status statusText
        | none =>
            match d.error with
            | some e => if e ≠ "" then e else defaultErrorMessage status statusText
            | none => defaultErrorMessage status statusText

/-- One source entry of an ApiResponse (types.ts). -/
structure ApiSource where
  title : String
  chunk : String
deriving Repr, DecidableEq

/-- ApiResponse (types.ts): the error field is string-or-null, embedded
as Option String. -/
structure ApiResponse where
  id : String
  rtype : String
  textResponse : String
  sources : List ApiSource
  close : Bool
  error : Option String
deriving Repr, DecidableEq

/-- The HTTP-200 path of sendChatMessage (api.ts lines 62-68): after a
successful parse, data.error && data.error !== 'null' && data.error !==
null decides whether a ChatApiError carrying data.error is thrown or
the data is returned. -/
def processOkResponse (data : ApiResponse) : Except String ApiResponse :=
  match data.error with
  | some e => if e ≠ "" && e ≠ "null" then Except.error e else Except.ok data
  | none => Except.ok data

/-! ### Speech synthesis (useSpeechSynthesis.ts, both implementations)

The file contains two near-duplicate hook implementations.  Their speak
entry, stop, and state shape are identical; they differ only in the
onend/onerror handlers (the first fires the stored callback
synchronously, the second defers it with setTimeout).  Callbacks are
identified by Nat ids. -/

structure SynthState where
  isSupported : Bool
  isSpeaking : Bool
  pendingCallback : Option Nat
  currentUtterance : Option String
deriving Repr, DecidableEq

/-- Observable effects emitted toward the platform speech engine and the
caller.  fireCallback carries the scheduled delay in milliseconds; a
synchronous invocation is recorded with delay 0. -/
inductive SynthEffect where
  | engineCancel : SynthEffect
  | engineSpeak : String → SynthEffect
  | fireCallback : Nat → Nat → SynthEffect
deriving Repr, DecidableEq

/-- speak(text, onEnd) (both implementations, lines 24-33 and 123-132):
returns immediately when unsupported or when text trims to empty;
otherwise stores the callback, cancels current speech, and hands a new
utterance to the engine. -/
def speak (s : SynthState) (text : String) (onEnd : Option Nat) :
    SynthState × List SynthEffect :=
  if !s.isSupported || jsTrim text == "" then (s, [])
  else
    ({ s with pendingCallback := onEnd, currentUtterance := some text },
     [SynthEffect.engineCancel, SynthEffect.engineSpeak text])

/-- stop() (both implementations): cancel playback, clear the speaking
flag and discard any pending callback. -/
def stopSpeech (s : SynthState) : SynthState × List SynthEffect :=
  ({ s with isSpeaking := false, pendingCallback := none },
   [SynthEffect.engineCancel])

/-- utterance.onend of the first implementation (lines 54-61): the
stored callback, if any, is invoked synchronously (delay 0) and
cleared. -/
def onEndHandlerA (s : SynthState) : SynthState × List SynthEffect :=
  match s.pendingCallback with
  | some cb =>
      ({ s with isSpeaking := false, pendingCallback := none },
       [SynthEffect.fireCallback cb 0])
  | none => ({ s with isSpeaking := false }, [])

/-- utterance.onerror of the first implementation (lines 63-71): same
synchronous invocation as its onend. -/
def onErrorHandlerA (s : SynthState) : SynthState × List SynthEffect :=
  onEndHandlerA s

/-- Settle delay of the second implementation's onend (lines 161-162):
3000 ms on mobile-class platforms, 2000 ms on desktop. -/
def endSettleDelayB (isMobile : Bool) : Nat :=
  if isMobile then 3000 else 2000

/-- utterance.onend of the second implementation (lines 153-168): the
stored callback is cleared and scheduled after the platform-dependent
settle delay. -/
def onEndHandlerB (isMobile : Bool) (s : SynthState) :
    SynthState × List SynthEffect :=
  match s.pendingCallback with
  | some cb =>
      ({ s with isSpeaking := false, pendingCallback := none },
       [SynthEffect.fireCallback cb (endSettleDelayB isMobile)])
  | none => ({ s with isSpeaking := false }, [])

/-- utterance.onerror of the second implementation (lines 170-182): the
stored callback is cleared and scheduled after a fixed 2000 ms delay,
with no platform distinction. -/
def onErrorHandlerB (s : SynthState) : SynthState × List SynthEffect :=
  match s.pendingCallback with
  | some cb =>
      ({ s with isSpeaking := false, pendingCallback := none },
       [SynthEffect.fireCallback cb 2000])
  | none => ({ s with isSpeaking := false }, [])

/-- Platform playback events delivered to an utterance's handlers. -/
inductive PlayEvent where
  | endEv : PlayEvent
  | errorEv : PlayEvent
deriving Repr, DecidableEq

/-- Dispatch one playback event through the first implementation's
handlers. -/
def stepSynthA (s : SynthState) : PlayEvent → SynthState × List SynthEffect
  | PlayEvent.endEv => onEndHandlerA s
  | PlayEvent.errorEv => onErrorHandlerA s

/-- Dispatch one playback event through the second implementation's
handlers. -/
def stepSynthB (isMobile : Bool) (s : SynthState) :
    PlayEvent → SynthState × List SynthEffect
  | PlayEvent.endEv => onEndHandlerB isMobile s
  | PlayEvent.errorEv => onErrorHandlerB s

/-- Run a sequence of playback events through the first implementation,
collecting all emitted effects in order. -/
def runSynthA (s : SynthState) : List PlayEvent → SynthState × List SynthEffect
  | [] => (s, [])
  | e :: es =>
      let r := stepSynthA s e
      let r2 := runSynthA r.1 es
      (r2.1, r.2 ++ r2.2)

/-- Run a sequence of playback events through the second implementation,
collecting all emitted effects in order. -/
def runSynthB (isMobile : Bool) (s : SynthState) :
    List PlayEvent → SynthState × List SynthEffect
  | [] => (s, [])
  | e :: es =>
      let r := stepSynthB isMobile s e
      let r2 := runSynthB isMobile r.1 es
      (r2.1, r.2 ++ r2.2)

/-! ### Speech recognition (useSpeechRecognition.ts)

State record mirroring the hook's refs and state.  Engine instances are
identified by Nat ids drawn from nextId.  The live field is platform
instrumentation: the set of engine instances that have been created and
neither aborted nor ended (an aborted or ended engine delivers no
further result events).  The contribs field is instrumentation
paralleling finalTranscript: each final chunk appended to the
accumulator is recorded together with the id of the engine that
delivered it, so that the provenance of the buffer contents can be
stated.  Timer refs hold the scheduled delay (and, for the restart
timer, the onSpeechEnd callback captured by its closure).  Endpoint
callbacks are identified by Nat ids. -/

structure RecState where
  isListening : Bool
  transcript : String
  finalTranscript : String
  contribs : List (Nat × String)
  isVoiceMode : Bool
  callback : Option Nat
  restartTimer : Option (Nat × Nat)
  silenceTimer : Option Nat
  engine : Option Nat
  live : List Nat
  nextId : Nat
deriving Repr, DecidableEq

/-- Initial hook state: no session, empty buffers. -/
def initRec : RecState :=
  { isListening := false, transcript := "", finalTranscript := "",
    contribs := [], isVoiceMode := false, callback := none,
    restartTimer := none, silenceTimer := none, engine := none,
    live := [], nextId := 0 }

/-- cleanup (lines 805-819): clear the restart and silence timers, abort
the engine held in recognitionRef (it then delivers no further results,
so it leaves the live set) and null the ref, clear isListening. -/
def cleanup (s : RecState) : RecState :=
  { s with restartTimer := none, silenceTimer := none,
           live := match s.engine with
                   | some e => s.live.filter (fun x => x ≠ e)
                   | none => s.live,
           engine := none,
           isListening := false }

/-- Restart delay of restartListening (lines 851-852): 3000 ms on
mobile-class platforms, 2000 ms on desktop. -/
def restartDelay (isMobile : Bool) : Nat :=
  if isMobile then 3000 else 2000

/-- Silence-endpoint delay (lines 931-932): 3500 ms on mobile-class
platforms, 3000 ms on desktop. -/
def silenceDelay (isMobile : Bool) : Nat :=
  if isMobile then 3500 else 3000

/-- restartListening(onSpeechEnd) (lines 842-859): clear any existing
restart timer and schedule a new one, capturing the callback in its
closure. -/
def restartListening (isMobile : Bool) (cb : Nat) (s : RecState) : RecState :=
  { s with restartTimer := some (restartDelay isMobile, cb) }

/-- startListening(onSpeechEnd) (lines 861-1005), on the path where the
platform is supported and microphone permission is granted: tear down
any existing session via cleanup, set the voice-mode flag and stored
callback from the argument, clear the final-transcript accumulator,
create a fresh engine instance and store it in recognitionRef.  The
onstart handler (lines 893-897) then sets isListening and clears the
visible transcript. -/
def startListening (onSpeechEnd : Option Nat) (s : RecState) : RecState :=
  let t := cleanup s
  { t with isVoiceMode := onSpeechEnd.isSome,
           callback := onSpeechEnd,
           finalTranscript := "",
           contribs := [],
           engine := some t.nextId,
           live := t.live ++ [t.nextId],
           nextId := t.nextId + 1,
           isListening := true,
           transcript := "" }

/-- One entry of a recognition result event: a transcript piece that is
either final or interim. -/
structure RecResult where
  isFinal : Bool
  text : String
deriving Repr, DecidableEq

/-- Fold of the onresult loop over the event's results collecting the
final pieces (lines 903-913). -/
def finalsText (rs : List RecResult) : String :=
  rs.foldl (fun acc r => if r.isFinal then acc ++ r.text else acc) ""

/-- Fold of the onresult loop over the event's results collecting the
interim pieces (lines 903-913). -/
def interimText (rs : List RecResult) : String :=
  rs.foldl (fun acc r => if !r.isFinal then acc ++ r.text else acc) ""

/-- recognition.onresult (lines 899-950), delivered by engine e: append
the event's final pieces to finalTranscriptRef, publish final+interim
as the visible transcript, clear any pending silence timer, and, when
the event contained a final piece and the session is a voice-mode one
with a stored callback, arm the silence timer. -/
def onResult (isMobile : Bool) (e : Nat) (rs : List RecResult)
    (s : RecState) : RecState :=
  let fin := finalsText rs
  let inter := interimText rs
  let t := { s with
    finalTranscript := s.finalTranscript ++ fin,
    contribs := s.contribs ++
      ((rs.filter (fun r => r.isFinal)).map (fun r => (e, r.text))),
    transcript := s.finalTranscript ++ fin ++ inter,
    silenceTimer := none }
  if fin ≠ "" && s.isVoiceMode && s.callback.isSome then
    { t with silenceTimer := some (silenceDelay isMobile) }
  else t

/-- Outcome of the silence-timer callback: whether recognition.stop()
was invoked, and the (callback, fullText) pair captured for the 300 ms
grace timer, if one was scheduled. -/
structure SilenceOutcome where
  stoppedEngine : Bool
  graceScheduled : Option (Nat × String)
deriving Repr, DecidableEq

/-- The silence-timer callback (lines 934-948): read
finalTranscriptRef, trim it, and if it is nonempty while the voice-mode
ref and the stored callback are both live, stop the engine, capture the
callback and text, and schedule the 300 ms grace timer with them. -/
def silenceFire (s : RecState) : RecState × SilenceOutcome :=
  let fullText := jsTrim s.finalTranscript
  match s.callback with
  | some cb =>
      if fullText ≠ "" && s.isVoiceMode then
        ({ s with silenceTimer := none },
         { stoppedEngine := true, graceScheduled := some (cb, fullText) })
      else
        ({ s with silenceTimer := none },
         { stoppedEngine := false, graceScheduled := none })
  | none =>
      ({ s with silenceTimer := none },
       { stoppedEngine := false, graceScheduled := none })

/-- The 300 ms grace callback (lines 941-946).  Its body is: if the
captured callback is non-null, invoke it with the captured fullText.
voiceModeAtFire is the value of the voice-mode ref at the moment the
timer fires; the body does not read it.  The result is the invocation
performed: some (cb, text) means cb is called with text. -/
def graceFire (cb : Nat) (fullText : String) (voiceModeAtFire : Bool) :
    Option (Nat × String) :=
  some (cb, fullText)

/-- The restart-timer callback (lines 854-858): re-read the voice-mode
ref at fire time; if it is still set, re-enter startListening with the
captured callback, otherwise do nothing.  The Bool result records
whether startListening was invoked. -/
def restartTimerFire (s : RecState) : RecState × Bool :=
  match s.restartTimer with
  | some (_, cb) =>
      if s.isVoiceMode then
        (startListening (some cb) { s with restartTimer := none }, true)
      else
        ({ s with restartTimer := none }, false)
  | none => (s, false)

/-- Error kinds reported by recognition.onerror (lines 970-996). -/
inductive RecErrorKind where
  | aborted : RecErrorKind
  | notAllowed : RecErrorKind
  | noSpeech : RecErrorKind
  | other : RecErrorKind
deriving Repr, DecidableEq

/-- Outcome of the onerror handler: whether an alert was shown, whether
a delayed restart was scheduled, and whether the handler fell through
to the common teardown (isListening cleared, ref nulled, silence timer
cleared). -/
structure ErrOutcome where
  alerted : Bool
  restartScheduled : Bool
  listeningCleared : Bool
deriving Repr, DecidableEq

/-- recognition.onerror (lines 970-996), reported by engine e (an
errored engine has ended platform-side, so it leaves the live set).
An aborted error is logged only; not-allowed shows an alert; no-speech
while the voice-mode ref and stored callback are live schedules a
delayed restart and returns early, skipping the common teardown; every
other case falls through to the teardown. -/
def onError (isMobile : Bool) (kind : RecErrorKind) (e : Nat)
    (s : RecState) : RecState × ErrOutcome :=
  let lv := s.live.filter (fun x => x ≠ e)
  match kind with
  | RecErrorKind.notAllowed =>
      ({ s with isListening := false, engine := none, silenceTimer := none,
                live := lv },
       { alerted := true, restartScheduled := false, listeningCleared := true })
  | RecErrorKind.noSpeech =>
      match s.callback, s.isVoiceMode with
      | some cb, true =>
          (restartListening isMobile cb { s with live := lv },
           { alerted := false, restartScheduled := true,
             listeningCleared := false })
      | _, _ =>
          ({ s with isListening := false, engine := none,
                    silenceTimer := none, live := lv },
           { alerted := false, restartScheduled := false,
             listeningCleared := true })
  | _ =>
      ({ s with isListening := false, engine := none, silenceTimer := none,
                live := lv },
       { alerted := false, restartScheduled := false,
         listeningCleared := true })

/-- recognition.onend (lines 952-968), reported by engine e: clear
isListening, null the ref, clear the silence timer; in manual mode with
a nonempty accumulator, publish the accumulator as the visible
transcript. -/
def onEnd (e : Nat) (s : RecState) : RecState :=
  let t := { s with isListening := false, engine := none,
                    silenceTimer := none,
                    live := s.live.filter (fun x => x ≠ e) }
  if !t.isVoiceMode && t.finalTranscript ≠ "" then
    { t with transcript := t.finalTranscript }
  else t

/-- stopListening (lines 1007-1012): clear the voice-mode ref and the
stored callback, then cleanup. -/
def stopListening (s : RecState) : RecState :=
  cleanup { s with isVoiceMode := false, callback := none }

/-- resetTranscript (lines 1014-1018): clear both transcript buffers. -/
def resetTranscript (s : RecState) : RecState :=
  { s with transcript := "", finalTranscript := "", contribs := [] }

/-! ### Event traces over the recognition hook -/

/-- Events driving the recognition hook: public operations of the hook,
engine events, and timer firings. -/
inductive RecEvent where
  | start : Option Nat → RecEvent
  | stopL : RecEvent
  | reset : RecEvent
  | result : Nat → List RecResult → RecEvent
  | engineEnd : Nat → RecEvent
  | engineError : Nat → RecErrorKind → RecEvent
  | silence : RecEvent
  | restartF : RecEvent
deriving Repr, DecidableEq

/-- One step of the recognition hook under an event. -/
def stepRec (isMobile : Bool) (s : RecState) : RecEvent → RecState
  | RecEvent.start cb => startListening cb s
  | RecEvent.stopL => stopListening s
  | RecEvent.reset => resetTranscript s
  | RecEvent.result e rs => onResult isMobile e rs s
  | RecEvent.engineEnd e => onEnd e s
  | RecEvent.engineError e k => (onError isMobile k e s).1
  | RecEvent.silence => (silenceFire s).1
  | RecEvent.restartF => (restartTimerFire s).1

/-- Run a list of events through the recognition hook. -/
def runRec (isMobile : Bool) (s : RecState) : List RecEvent → RecState
  | [] => s
  | ev :: evs => runRec isMobile (stepRec isMobile s ev) evs

/-- A recognition state is reachable when some event trace from the
initial hook state produces it. -/
def ReachableRec (isMobile : Bool) (s : RecState) : Prop :=
  ∃ evs : List RecEvent, runRec isMobile initRec evs = s

/-- Traces of startListening calls and engine result deliveries, the
shape quantified over by the single-live-engine property. -/
inductive CapEvent where
  | start : Option Nat → CapEvent
  | result : Nat → List RecResult → CapEvent
deriving Repr, DecidableEq

/-- One step under a capture event. -/
def stepCap (isMobile : Bool) (s : RecState) : CapEvent → RecState
  | CapEvent.start cb => startListening cb s
  | CapEvent.result e rs => onResult isMobile e rs s

/-- Run a list of capture events. -/
def runCap (isMobile : Bool) (s : RecState) : List CapEvent → RecState
  | [] => s
  | ev :: evs => runCap isMobile (stepCap isMobile s ev) evs

/-- Platform well-formedness of a capture trace from a given state:
result events are delivered only by engines that are live at delivery
time (an aborted engine delivers nothing). -/
def wfCap (isMobile : Bool) (s : RecState) : List CapEvent → Bool
  | [] => true
  | CapEvent.start cb :: evs =>
      wfCap isMobile (stepCap isMobile s (CapEvent.start cb)) evs
  | CapEvent.result e rs :: evs =>
      s.live.contains e &&
      wfCap isMobile (stepCap isMobile s (CapEvent.result e rs)) evs

/-- Invariant coupling the live engine set, the engine ref and the
provenance buffer: at most the referenced engine instance is live, and
every chunk in the final-transcript buffer was delivered by the
currently referenced engine. -/
def CapInv (s : RecState) : Prop :=
  (s.live = [] ∨ ∃ e, s.live = [e] ∧ s.engine = some e) ∧
  (∀ p ∈ s.contribs, s.engine = some p.1)

/-- Deliver a sequence of result events from engine e. -/
def deliver (isMobile : Bool) (e : Nat) (s : RecState) :
    List (List RecResult) → RecState
  | [] => s
  | rs :: rest => deliver isMobile e (onResult isMobile e rs s) rest

/-- The final-transcript chunks contained in a sequence of result
events, in arrival order. -/
def finalChunks (rss : List (List RecResult)) : List String :=
  rss.flatMap (fun rs => (rs.filter (fun r => r.isFinal)).map (fun r => r.text))

/-- Concatenation of a list of chunks in arrival order. -/
def concatChunks : List String → String
  | [] => ""
  | c :: cs => c ++ concatChunks cs

/-! ### Voice conversation orchestrator (App.tsx,
handleVoiceConversation, lines 140-223)

The handler is an async function; its behaviour is a function of the
spoken text, the value of voiceModeRef.current at entry (read by the
empty-utterance guard), the resolution of the awaited sendChatMessage
call, and the value of voiceModeRef.current when that call resolves
(read by the speak/restart decisions and the error path).  The outcome
record collects its externally visible actions. -/

structure VoiceCallOutcome where
  appendedUserMessage : Bool
  calledBackend : Bool
  appendedBotMessage : Option String
  spokeText : Option String
  directRestart : Bool
  errorRetryScheduled : Bool
deriving Repr, DecidableEq

/-- Fallback error text used when a non-ChatApiError escapes (line
200); sendChatMessage only ever throws ChatApiError, so the Except
error value carries the ChatApiError message. -/
def genericVoiceError : String :=
  "Üzgünüm, bir hata oluştu. Lütfen tekrar deneyin."

/-- handleVoiceConversation (lines 140-223).  A trivial utterance
(empty after trimming) only restarts listening when the voice-mode ref
is set at entry.  Otherwise a user turn is appended and the backend is
called unconditionally; on resolution, a bot turn is appended, and the
voice-mode ref at resolution time gates speaking the response (nonempty
response), restarting directly (empty response), or scheduling the 2 s
error-retry timer (failure). -/
def handleVoiceConversation (spokenText : String) (voiceModeAtEntry : Bool)
    (callResult : Except String ApiResponse) (voiceModeAtResolve : Bool) :
    VoiceCallOutcome :=
  if jsTrim spokenText == "" then
    { appendedUserMessage := false, calledBackend := false,
      appendedBotMessage := none, spokeText := none,
      directRestart := voiceModeAtEntry, errorRetryScheduled := false }
  else
    match callResult with
    | Except.ok data =>
        if data.textResponse ≠ "" && voiceModeAtResolve then
          { appendedUserMessage := true, calledBackend := true,
            appendedBotMessage := some data.textResponse,
            spokeText := some data.textResponse,
            directRestart := false, errorRetryScheduled := false }
        else if voiceModeAtResolve then
          { appendedUserMessage := true, calledBackend := true,
            appendedBotMessage := some data.textResponse,
            spokeText := none, directRestart := true,
            errorRetryScheduled := false }
        else
          { appendedUserMessage := true, calledBackend := true,
            appendedBotMessage := some data.textResponse,
            spokeText := none, directRestart := false,
            errorRetryScheduled := false }
    | Except.error msg =>
        { appendedUserMessage := true, calledBackend := true,
          appendedBotMessage := some msg, spokeText := none,
          directRestart := false, errorRetryScheduled := voiceModeAtResolve }

/-! ### Sample values used by witnesses -/

/-- A successful backend response with a nonempty text. -/
def sampleResponse : ApiResponse :=
  { id := "1", rtype := "textResponse", textResponse := "selam",
    sources := [], close := false, error := none }

/-- A 200 response whose error field holds the literal string null. -/
def nullErrorResponse : ApiResponse :=
  { id := "1", rtype := "textResponse", textResponse := "selam",
    sources := [], close := false, error := some "null" }

/-- A 200 response whose error field holds a real error string. -/
def boomErrorResponse : ApiResponse :=
  { id := "1", rtype := "textResponse", textResponse := "",
    sources := [], close := false, error := some "boom" }

/-- A playback state with a registered completion callback. -/
def speakingState : SynthState :=
  { isSupported := true, isSpeaking := true, pendingCallback := some 1,
    currentUtterance := some "selam" }

/-! ### Claim theorems -/

/-- C9: calling speak with text that trims to empty is a complete
no-op: the state (including any previously pending completion callback)
is unchanged and no effect — no engine cancellation, no engine
invocation, no callback firing — is emitted. -/
theorem speak_trivial_noop (s : SynthState) (text : String)
    (onEnd : Option Nat) (h : jsTrim text = "") :
    speak s text onEnd = (s, []) := by
  simp [speak, h]

/-- Witness for speak_trivial_noop at a whitespace-only text and a
state with a pending callback from an earlier playback. -/
theorem speak_trivial_noop_witness :
    jsTrim "   " = "" ∧
    speak { isSupported := true, isSpeaking := true,
            pendingCallback := some 5, currentUtterance := some "selam" }
      "   " (some 9) =
      ({ isSupported := true, isSpeaking := true,
         pendingCallback := some 5, currentUtterance := some "selam" }, []) :=
  ⟨by decide, speak_trivial_noop _ "   " (some 9) (by decide)⟩

/-- C10: for a non-trivially spoken text, handleVoiceConversation
appends a user turn and issues the backend call for every value of the
voice-mode reference at entry and at resolution: the flag never
suppresses the backend request or the message-list update. -/
theorem voice_entry_unconditional (spokenText : String) (ve vr : Bool)
    (r : Except String ApiResponse) (h : jsTrim spokenText ≠ "") :
    (handleVoiceConversation spokenText ve r vr).appendedUserMessage = true ∧
    (handleVoiceConversation spokenText ve r vr).calledBackend = true := by
  have hb : (jsTrim spokenText == "") = false := by
    simpa using h
  cases r with
  | ok d =>
      by_cases ht : d.textResponse = "" <;> by_cases hv : vr = true <;>
        simp [handleVoiceConversation, hb, ht, hv]
  | error m => simp [handleVoiceConversation, hb]

/-- Witness for voice_entry_unconditional with the voice-mode reference
already false at entry and at resolution. -/
theorem voice_entry_unconditional_witness :
    jsTrim "merhaba" ≠ "" ∧
    (handleVoiceConversation "merhaba" false
        (Except.ok sampleResponse) false).appendedUserMessage = true :=
  ⟨by decide,
   (voice_entry_unconditional "merhaba" false false
      (Except.ok sampleResponse) (by decide)).1⟩

/-- C1: if the voice-mode reference is false when the backend call
resolves (voice mode was exited while the call was in flight), then for
every resolution of the call no response is auto-spoken, no direct
restart happens and no error-retry restart timer is scheduled. -/
theorem exit_during_flight_no_transitions (spokenText : String) (ve : Bool)
    (r : Except String ApiResponse) (h : jsTrim spokenText ≠ "") :
    (handleVoiceConversation spokenText ve r false).spokeText = none ∧
    (handleVoiceConversation spokenText ve r false).directRestart = false ∧
    (handleVoiceConversation spokenText ve r false).errorRetryScheduled
      = false := by
  have hb : (jsTrim spokenText == "") = false := by
    simpa using h
  cases r with
  | ok d => simp [handleVoiceConversation, hb]
  | error m => simp [handleVoiceConversation, hb]

/-- Witness for exit_during_flight_no_transitions: a successful
resolution with nonempty text arriving after voice mode was exited is
not spoken. -/
theorem exit_during_flight_witness :
    jsTrim "merhaba" ≠ "" ∧
    (handleVoiceConversation "merhaba" true
        (Except.ok sampleResponse) false).spokeText = none :=
  ⟨by decide,
   (exit_during_flight_no_transitions "merhaba" true
      (Except.ok sampleResponse) (by decide)).1⟩

/-- C5 counterexample: a 403 response whose body is not parseable as
JSON is mapped to the generic status-based message, not the fixed
invalid-credential message, because the status-403 test sits after the
response.json() call inside the try block. -/
theorem forbidden_unparseable_counterexample :
    nonOkErrorMessage 403 "Forbidden" none
      = defaultErrorMessage 403 "Forbidden" ∧
    defaultErrorMessage 403 "Forbidden" ≠ invalidKeyMessage := by
  constructor
  · rfl
  · decide

/-- C5 amended: for every 403 response whose body does parse as JSON,
the fixed invalid-credential message is used regardless of the parsed
fields. -/
theorem forbidden_parsed_fixed_message (statusText : String) (d : ErrorBody) :
    nonOkErrorMessage 403 statusText (some d) = invalidKeyMessage := by
  simp [nonOkErrorMessage]

/-- C7 counterexample: a 200 response whose error field is the non-null
string literal null is returned as a success, not thrown. -/
theorem ok_error_field_counterexample :
    nullErrorResponse.error = some "null" ∧
    nullErrorResponse.error ≠ none ∧
    processOkResponse nullErrorResponse = Except.ok nullErrorResponse := by
  refine ⟨rfl, by decide, rfl⟩

/-- C7 amended: on a 200 response the error field causes a throw
carrying its value exactly when it is a non-empty string other than the
literal string null; otherwise the response is returned. -/
theorem ok_error_field_throws (data : ApiResponse) (e : String)
    (he : data.error = some e) :
    processOkResponse data =
      if e ≠ "" && e ≠ "null" then Except.error e else Except.ok data := by
  simp [processOkResponse, he]

/-- Witness for ok_error_field_throws at a response carrying a real
error string, which is thrown. -/
theorem ok_error_field_throws_witness :
    boomErrorResponse.error = some "boom" ∧
    processOkResponse boomErrorResponse =
      (if "boom" ≠ "" && "boom" ≠ "null" then Except.error "boom"
       else Except.ok boomErrorResponse) :=
  ⟨rfl, ok_error_field_throws boomErrorResponse "boom" rfl⟩

/-- C4 counterexample: in a voice-mode session that accumulated the
final chunk merhaba, the silence timer stops the engine and schedules
the grace callback with the captured pair; firing that grace callback
with the voice-mode flag already false still invokes the endpoint
callback — the grace callback does not re-read the flag. -/
theorem grace_ignores_flag_counterexample :
    (silenceFire (onResult false 0 [{ isFinal := true, text := "merhaba" }]
        (startListening (some 7) initRec))).2.graceScheduled =
      some (7, "merhaba") ∧
    graceFire 7 "merhaba" false = some (7, "merhaba") := by
  constructor
  · decide
  · rfl

/-- C4 amended: the delayed-restart timer callback re-reads the
voice-mode flag at fire time and performs no restart when the flag is
false, only consuming the spent timer; the grace-delay callback,
however, invokes the captured endpoint callback with the captured text
whenever one was captured, regardless of the voice-mode flag at fire
time. -/
theorem scheduled_callback_guards (s : RecState) (cb : Nat) (t : String)
    (v : Bool) (h : s.isVoiceMode = false) :
    (restartTimerFire s).2 = false ∧
    (restartTimerFire s).1 = { s with restartTimer := none } ∧
    graceFire cb t v = some (cb, t) := by
  refine ⟨?_, ?_, rfl⟩ <;>
    cases hm : s.restartTimer with
    | none => cases s; simp_all [restartTimerFire]
    | some p => cases p; simp [restartTimerFire, hm, h]

/-- Witness for scheduled_callback_guards: a pending restart timer in a
state whose voice-mode flag is false fires without restarting. -/
theorem scheduled_callback_guards_witness :
    ({ initRec with restartTimer := some (2000, 4) } : RecState).isVoiceMode
      = false ∧
    (restartTimerFire { initRec with restartTimer := some (2000, 4) }).2
      = false :=
  ⟨rfl,
   (scheduled_callback_guards { initRec with restartTimer := some (2000, 4) }
      4 "selam" false rfl).1⟩

/-- Projection: onResult leaves the voice-mode ref unchanged. -/
theorem onResult_isVoiceMode (m : Bool) (e : Nat) (rs : List RecResult)
    (s : RecState) : (onResult m e rs s).isVoiceMode = s.isVoiceMode := by
  simp only [onResult]; split <;> rfl

/-- Projection: onResult leaves the stored endpoint callback
unchanged. -/
theorem onResult_callback (m : Bool) (e : Nat) (rs : List RecResult)
    (s : RecState) : (onResult m e rs s).callback = s.callback := by
  simp only [onResult]; split <;> rfl

/-- Projection: onResult leaves the engine ref unchanged. -/
theorem onResult_engine (m : Bool) (e : Nat) (rs : List RecResult)
    (s : RecState) : (onResult m e rs s).engine = s.engine := by
  simp only [onResult]; split <;> rfl

/-- Projection: onResult leaves the live engine set unchanged. -/
theorem onResult_live (m : Bool) (e : Nat) (rs : List RecResult)
    (s : RecState) : (onResult m e rs s).live = s.live := by
  simp only [onResult]; split <;> rfl

/-- Projection: onResult appends the event's final pieces to the
provenance buffer. -/
theorem onResult_contribs (m : Bool) (e : Nat) (rs : List RecResult)
    (s : RecState) : (onResult m e rs s).contribs =
      s.contribs ++ ((rs.filter (fun r => r.isFinal)).map
        (fun r => (e, r.text))) := by
  simp only [onResult]; split <;> rfl

/-- Projection: onResult appends the event's final pieces to the
final-transcript accumulator. -/
theorem onResult_finalTranscript (m : Bool) (e : Nat) (rs : List RecResult)
    (s : RecState) : (onResult m e rs s).finalTranscript =
      s.finalTranscript ++ finalsText rs := by
  simp only [onResult]; split <;> rfl

/-- Projection: onEnd leaves the voice-mode ref unchanged. -/
theorem onEnd_isVoiceMode (e : Nat) (s : RecState) :
    (onEnd e s).isVoiceMode = s.isVoiceMode := by
  simp only [onEnd]; split <;> rfl

/-- Projection: onEnd leaves the stored endpoint callback unchanged. -/
theorem onEnd_callback (e : Nat) (s : RecState) :
    (onEnd e s).callback = s.callback := by
  simp only [onEnd]; split <;> rfl

/-- Projection: the silence-timer callback only consumes the timer in
the hook state; every branch returns the state with the timer
cleared. -/
theorem silenceFire_fst (s : RecState) :
    (silenceFire s).1 = { s with silenceTimer := none } := by
  simp only [silenceFire]
  cases s.callback with
  | none => rfl
  | some c => split <;> first | (split <;> rfl) | rfl

/-- C8 invariant helper: every event step preserves the coupling of the
voice-mode ref and the stored endpoint callback (they are written
together everywhere in the hook). -/
theorem stepRec_voiceMode_callback (isMobile : Bool) (s : RecState)
    (ev : RecEvent) (h : s.isVoiceMode = true → s.callback.isSome = true) :
    (stepRec isMobile s ev).isVoiceMode = true →
      (stepRec isMobile s ev).callback.isSome = true := by
  cases ev with
  | start cb =>
      cases cb <;> simp [stepRec, startListening, cleanup]
  | stopL => simp [stepRec, stopListening, cleanup]
  | reset => simpa [stepRec, resetTranscript] using h
  | result e rs =>
      simpa only [stepRec, onResult_isVoiceMode, onResult_callback] using h
  | engineEnd e =>
      simpa only [stepRec, onEnd_isVoiceMode, onEnd_callback] using h
  | engineError e k =>
      cases k with
      | noSpeech =>
          simp only [stepRec, onError]
          cases hcb : s.callback with
          | none =>
              cases hvm : s.isVoiceMode with
              | true => exact absurd (h hvm) (by simp [hcb])
              | false => simp [hcb, hvm]
          | some c =>
              cases hvm : s.isVoiceMode <;>
                simp [hcb, hvm, restartListening]
      | aborted => simpa [stepRec, onError] using h
      | notAllowed => simpa [stepRec, onError] using h
      | other => simpa [stepRec, onError] using h
  | silence =>
      simp only [stepRec, silenceFire_fst]
      exact h
  | restartF =>
      simp only [stepRec, restartTimerFire]
      cases hm : s.restartTimer with
      | none => exact h
      | some p =>
          cases p with
          | mk d cb =>
              cases hv : s.isVoiceMode with
              | false => simpa [hv] using h
              | true => simp [hv, startListening, cleanup]

/-- C8 invariant: in every reachable recognition state, a true
voice-mode ref comes with a stored endpoint callback. -/
theorem reachable_voiceMode_callback (isMobile : Bool) (s : RecState)
    (h : ReachableRec isMobile s) :
    s.isVoiceMode = true → s.callback.isSome = true := by
  obtain ⟨evs, rfl⟩ := h
  suffices H : ∀ (t : RecState),
      (t.isVoiceMode = true → t.callback.isSome = true) →
      ((runRec isMobile t evs).isVoiceMode = true →
        (runRec isMobile t evs).callback.isSome = true) by
    exact H initRec (by intro hv; cases hv)
  induction evs with
  | nil => intro t ht; exact ht
  | cons ev evs ih =>
      intro t ht
      exact ih (stepRec isMobile t ev) (stepRec_voiceMode_callback isMobile t ev ht)

/-- C8: in any reachable voice-mode state, a no-speech engine error
does not terminate the loop and surfaces no alert: the handler
schedules the delayed restart, leaves the listening flag and the
voice-mode ref as they were, and arms the restart timer. -/
theorem noSpeech_auto_restarts (isMobile : Bool) (s : RecState) (e : Nat)
    (hr : ReachableRec isMobile s) (hv : s.isVoiceMode = true) :
    (onError isMobile RecErrorKind.noSpeech e s).2 =
      { alerted := false, restartScheduled := true,
        listeningCleared := false } ∧
    (onError isMobile RecErrorKind.noSpeech e s).1.restartTimer.isSome
      = true ∧
    (onError isMobile RecErrorKind.noSpeech e s).1.isListening
      = s.isListening ∧
    (onError isMobile RecErrorKind.noSpeech e s).1.isVoiceMode = true := by
  have hc := reachable_voiceMode_callback isMobile s hr hv
  obtain ⟨cb, hcb⟩ := Option.isSome_iff_exists.mp hc
  simp [onError, hcb, hv, restartListening]

/-- Witness for noSpeech_auto_restarts: the state right after entering
voice mode, hit by a no-speech error. -/
theorem noSpeech_auto_restarts_witness :
    (startListening (some 3) initRec).isVoiceMode = true ∧
    (onError false RecErrorKind.noSpeech 0
        (startListening (some 3) initRec)).2 =
      { alerted := false, restartScheduled := true,
        listeningCleared := false } :=
  ⟨rfl,
   (noSpeech_auto_restarts false (startListening (some 3) initRec) 0
      ⟨[RecEvent.start (some 3)], rfl⟩ rfl).1⟩

/-- Once the pending callback is cleared, neither implementation's
handlers emit any further effect: helper for the first
implementation. -/
theorem runSynthA_no_pending (evs : List PlayEvent) (s : SynthState)
    (h : s.pendingCallback = none) : (runSynthA s evs).2 = [] := by
  induction evs generalizing s with
  | nil => rfl
  | cons e es ih =>
      have hs : stepSynthA s e = ({ s with isSpeaking := false }, []) := by
        cases e <;> simp [stepSynthA, onEndHandlerA, onErrorHandlerA, h]
      simp only [runSynthA, hs]
      simpa using ih { s with isSpeaking := false } h

/-- Once the pending callback is cleared, neither implementation's
handlers emit any further effect: helper for the second
implementation. -/
theorem runSynthB_no_pending (isMobile : Bool) (evs : List PlayEvent)
    (s : SynthState) (h : s.pendingCallback = none) :
    (runSynthB isMobile s evs).2 = [] := by
  induction evs generalizing s with
  | nil => rfl
  | cons e es ih =>
      have hs : stepSynthB isMobile s e = ({ s with isSpeaking := false }, []) := by
        cases e <;> simp [stepSynthB, onEndHandlerB, onErrorHandlerB, h]
      simp only [runSynthB, hs]
      simpa using ih { s with isSpeaking := false } h

/-- C6 counterexample: the first implementation fires the completion
callback synchronously on natural end — delay 0, with no platform
distinction — and the second implementation's error path fires it after
a fixed 2000 ms delay that does not depend on the platform class, so on
neither path is the delay longer on mobile than on desktop as the claim
requires of every speak call. -/
theorem settle_delay_counterexample :
    (onEndHandlerA speakingState).2 = [SynthEffect.fireCallback 1 0] ∧
    (onErrorHandlerB speakingState).2 = [SynthEffect.fireCallback 1 2000] :=
  ⟨rfl, rfl⟩

/-- C6 amended: once a speak call has registered a completion callback,
the first playback event (natural end or error) fires it exactly once:
over any subsequent sequence of end/error events the whole emitted
effect stream is that single firing.  The first implementation fires it
immediately (delay 0, platform-independent); the second fires it after
the settle delay — 3000 ms mobile / 2000 ms desktop on natural end
(strictly longer on mobile), and a fixed 2000 ms on error. -/
theorem speak_callback_fires_once (isMobile : Bool) (s : SynthState)
    (cb : Nat) (e : PlayEvent) (evs : List PlayEvent)
    (h : s.pendingCallback = some cb) :
    (runSynthA s (e :: evs)).2 = [SynthEffect.fireCallback cb 0] ∧
    (runSynthB isMobile s (e :: evs)).2 =
      [SynthEffect.fireCallback cb
        (match e with
         | PlayEvent.endEv => endSettleDelayB isMobile
         | PlayEvent.errorEv => 2000)] ∧
    endSettleDelayB true > endSettleDelayB false := by
  refine ⟨?_, ?_, by decide⟩
  · have hs : stepSynthA s e =
        ({ s with isSpeaking := false, pendingCallback := none },
         [SynthEffect.fireCallback cb 0]) := by
      cases e <;> simp [stepSynthA, onEndHandlerA, onErrorHandlerA, h]
    have h0 : (runSynthA
        { s with isSpeaking := false, pendingCallback := none } evs).2 = [] :=
      runSynthA_no_pending evs _ rfl
    simp [runSynthA, hs, h0]
  · have hs : stepSynthB isMobile s e =
        ({ s with isSpeaking := false, pendingCallback := none },
         [SynthEffect.fireCallback cb
           (match e with
            | PlayEvent.endEv => endSettleDelayB isMobile
            | PlayEvent.errorEv => 2000)]) := by
      cases e <;> simp [stepSynthB, onEndHandlerB, onErrorHandlerB, h]
    have h0 : (runSynthB isMobile
        { s with isSpeaking := false, pendingCallback := none } evs).2 = [] :=
      runSynthB_no_pending isMobile evs _ rfl
    simp [runSynthB, hs, h0]

/-- Witness for speak_callback_fires_once: a natural end on a desktop
platform fires the registered callback exactly once. -/
theorem speak_callback_fires_once_witness :
    speakingState.pendingCallback = some 1 ∧
    (runSynthA speakingState [PlayEvent.endEv]).2 =
      [SynthEffect.fireCallback 1 0] :=
  ⟨rfl,
   (speak_callback_fires_once false speakingState 1 PlayEvent.endEv []
      rfl).1⟩

/-- String append is associative (on the underlying character lists). -/
theorem string_append_assoc (a b c : String) :
    a ++ b ++ c = a ++ (b ++ c) := by
  apply String.ext
  simp [String.data_append, List.append_assoc]

/-- Splitting a chunk concatenation over a list append. -/
theorem concatChunks_append (xs ys : List String) :
    concatChunks (xs ++ ys) = concatChunks xs ++ concatChunks ys := by
  induction xs with
  | nil => rfl
  | cons x xs ih => simp [concatChunks, ih, string_append_assoc]

/-- The onresult fold over an event's results produces exactly the
concatenation of its final pieces, appended to the accumulator. -/
theorem finalsText_foldl (rs : List RecResult) (acc : String) :
    rs.foldl (fun a r => if r.isFinal then a ++ r.text else a) acc =
      acc ++ concatChunks ((rs.filter (fun r => r.isFinal)).map
        (fun r => r.text)) := by
  induction rs generalizing acc with
  | nil => simp [concatChunks, String.append_empty]
  | cons r rest ih =>
      by_cases hf : r.isFinal = true
      · simp [hf, ih, concatChunks, string_append_assoc]
      · simp [hf, ih]

/-- The final pieces collected by one onresult event. -/
theorem finalsText_eq (rs : List RecResult) :
    finalsText rs = concatChunks ((rs.filter (fun r => r.isFinal)).map
      (fun r => r.text)) :=
  finalsText_foldl rs ""

/-- A sequence of result deliveries appends exactly the concatenation
of all final chunks, in arrival order, to the accumulator. -/
theorem deliver_finalTranscript (m : Bool) (e : Nat) (s : RecState)
    (rss : List (List RecResult)) :
    (deliver m e s rss).finalTranscript =
      s.finalTranscript ++ concatChunks (finalChunks rss) := by
  induction rss generalizing s with
  | nil => simp [deliver, finalChunks, concatChunks, String.append_empty]
  | cons rs rest ih =>
      simp only [deliver]
      rw [ih, onResult_finalTranscript, finalsText_eq, string_append_assoc]
      congr 1
      rw [show finalChunks (rs :: rest) =
            ((rs.filter (fun r => r.isFinal)).map (fun r => r.text))
              ++ finalChunks rest from by simp [finalChunks]]
      rw [concatChunks_append]

/-- Result deliveries never touch the stored endpoint callback. -/
theorem deliver_callback (m : Bool) (e : Nat) (s : RecState)
    (rss : List (List RecResult)) :
    (deliver m e s rss).callback = s.callback := by
  induction rss generalizing s with
  | nil => rfl
  | cons rs rest ih => simp only [deliver]; rw [ih, onResult_callback]

/-- Result deliveries never touch the voice-mode ref. -/
theorem deliver_isVoiceMode (m : Bool) (e : Nat) (s : RecState)
    (rss : List (List RecResult)) :
    (deliver m e s rss).isVoiceMode = s.isVoiceMode := by
  induction rss generalizing s with
  | nil => rfl
  | cons rs rest ih => simp only [deliver]; rw [ih, onResult_isVoiceMode]

/-- C2: in a voice-mode capture session, whatever sequence of result
events arrives before the silence timer fires, if the timer hands an
utterance to the grace callback then that utterance is exactly the
concatenation of the delivered final chunks in arrival order, trimmed,
and the invoked callback is the one the session was started with. -/
theorem endpoint_utterance_trimmed_concat (isMobile : Bool) (e cbId : Nat)
    (s0 : RecState) (rss : List (List RecResult)) (c : Nat) (u : String)
    (h : (silenceFire (deliver isMobile e (startListening (some cbId) s0)
        rss)).2.graceScheduled = some (c, u)) :
    u = jsTrim (concatChunks (finalChunks rss)) ∧ c = cbId := by
  have hcb : (deliver isMobile e (startListening (some cbId) s0)
      rss).callback = some cbId := by
    rw [deliver_callback]; rfl
  have hft : (deliver isMobile e (startListening (some cbId) s0)
      rss).finalTranscript = concatChunks (finalChunks rss) := by
    rw [deliver_finalTranscript]; rfl
  simp only [silenceFire, hcb] at h
  split at h
  · simp only [hft] at h
    simp at h
    exact ⟨h.2.symm, h.1.symm⟩
  · simp at h

/-- Witness for endpoint_utterance_trimmed_concat: a single final chunk
selam is handed to the endpoint callback as-is. -/
theorem endpoint_utterance_witness :
    (silenceFire (deliver false 0 (startListening (some 7) initRec)
        [[{ isFinal := true, text := "selam" }]])).2.graceScheduled =
      some (7, "selam") ∧
    "selam" = jsTrim (concatChunks (finalChunks
      [[{ isFinal := true, text := "selam" }]])) :=
  ⟨by decide,
   (endpoint_utterance_trimmed_concat false 0 7 initRec
      [[{ isFinal := true, text := "selam" }]] 7 "selam" (by decide)).1⟩

/-- Tearing down a session that satisfies the invariant leaves no live
engine: cleanup aborts the referenced engine, which is the only live
one. -/
theorem cleanup_live (s : RecState) (h : CapInv s) : (cleanup s).live = [] := by
  rcases h.1 with h1 | ⟨e, h1, h2⟩
  · cases he : s.engine <;> simp [cleanup, h1, he]
  · simp [cleanup, h1, h2]

/-- Starting a session from any invariant state re-establishes the
invariant: the previous engine is aborted, a single fresh engine is
live and referenced, and the provenance buffer is empty. -/
theorem startListening_inv (cb : Option Nat) (s : RecState) (h : CapInv s) :
    CapInv (startListening cb s) := by
  have hl := cleanup_live s h
  constructor
  · right
    refine ⟨s.nextId, ?_, rfl⟩
    simp only [startListening, hl, List.nil_append]
    rfl
  · intro p hp
    simp [startListening] at hp

/-- A result delivery from the live engine preserves the invariant: the
delivering engine is the referenced one, so all new provenance entries
carry the referenced engine's id. -/
theorem onResult_inv (m : Bool) (e : Nat) (rs : List RecResult)
    (s : RecState) (h : CapInv s) (hm : s.live.contains e = true) :
    CapInv (onResult m e rs s) := by
  rcases h.1 with h1 | ⟨f, h1, h2⟩
  · rw [h1] at hm
    simp at hm
  · have he : e = f := by
      rw [h1] at hm
      simpa using hm
    subst he
    constructor
    · right
      exact ⟨e, by rw [onResult_live]; exact h1,
             by rw [onResult_engine]; exact h2⟩
    · intro p hp
      rw [onResult_contribs] at hp
      rw [onResult_engine]
      rcases List.mem_append.mp hp with hp | hp
      · exact h.2 p hp
      · obtain ⟨r, hr, rfl⟩ := List.mem_map.mp hp
        exact h2

/-- Every well-formed capture trace preserves the invariant. -/
theorem runCap_inv (m : Bool) (evs : List CapEvent) (s : RecState)
    (h : CapInv s) (hwf : wfCap m s evs = true) :
    CapInv (runCap m s evs) := by
  induction evs generalizing s with
  | nil => exact h
  | cons ev evs ih =>
      cases ev with
      | start cb =>
          have hwf' : wfCap m (startListening cb s) evs = true := by
            simpa [wfCap, stepCap] using hwf
          exact ih (startListening cb s) (startListening_inv cb s h) hwf'
      | result e rs =>
          have hm : s.live.contains e = true ∧
              wfCap m (onResult m e rs s) evs = true := by
            simpa [wfCap, stepCap] using hwf
          exact ih (onResult m e rs s) (onResult_inv m e rs s h hm.1) hm.2

/-- C3: along every platform-well-formed sequence of startListening
calls and engine result deliveries, at most one engine instance is
live, every chunk in the transcript buffer was delivered by the single
currently referenced engine (no interleaving of two engines' result
streams), and startListening itself always hands back a state with
both timers cancelled and the transcript accumulator cleared. -/
theorem single_live_engine (isMobile : Bool) (evs : List CapEvent)
    (hwf : wfCap isMobile initRec evs = true) :
    (runCap isMobile initRec evs).live.length ≤ 1 ∧
    (∀ p ∈ (runCap isMobile initRec evs).contribs,
      (runCap isMobile initRec evs).engine = some p.1) ∧
    (∀ cb s, (startListening cb s).restartTimer = none ∧
      (startListening cb s).silenceTimer = none ∧
      (startListening cb s).finalTranscript = "" ∧
      (startListening cb s).contribs = []) := by
  have hinv := runCap_inv isMobile evs initRec
    ⟨Or.inl rfl, by intro p hp; simp [initRec] at hp⟩ hwf
  refine ⟨?_, hinv.2, ?_⟩
  · rcases hinv.1 with h | ⟨e, h, _⟩ <;> simp [h]
  · intro cb s
    exact ⟨rfl, rfl, rfl, rfl⟩

/-- Witness for single_live_engine: a start followed by a result from
the fresh engine. -/
theorem single_live_engine_witness :
    wfCap false initRec
      [CapEvent.start (some 1),
       CapEvent.result 0 [{ isFinal := true, text := "a" }]] = true ∧
    (runCap false initRec
      [CapEvent.start (some 1),
       CapEvent.result 0 [{ isFinal := true, text := "a" }]]).live.length
      ≤ 1 :=
  ⟨by decide, (single_live_engine false _ (by decide)).1⟩

end Ok24
